import Mathlib

/-!
Shallow embedding of the coupon-evaluation service in `src/main.py`
(`Simple Coupon Service`, FastAPI).

Modelling conventions:
* Monetary values (Python `float`) are modelled as `ℚ`; timestamps
  (`datetime` UTC instants) as `ℤ`; redemption counts as `ℕ`.
* Python strings are Lean `String`s; Python string comparison
  (code-point lexicographic) is `codeLt` below; `str.strip().upper()`
  is `normalizeCode` (ASCII whitespace / ASCII letters, which covers
  every code the service manipulates).
* The module-level dict `coupons` (insertion-ordered, keyed by the
  normalized code) is an association list `Store`; a coupon's
  `usage_count` dict is an association list `Ledger`.
* Stateful endpoints are embedded in state-passing style: they return
  their result together with the store they leave behind.  The wall
  clock (`now_utc()`) is an explicit `now : ℤ` argument.
-/

/-- `DiscountType` enum of `main.py`: `FLAT` or `PERCENT`. -/
inductive DiscountType where
  | FLAT
  | PERCENT
deriving DecidableEq

/-- `Eligibility` model of `main.py`: nine independent optional predicates.
`Optional[List[str]]`, `Optional[float]`, `Optional[int]`, `Optional[bool]`
become `Option` of `List String`, `ℚ`, `ℤ`, `Bool`. -/
structure Eligibility where
  allowedUserTiers : Option (List String) := none
  minLifetimeSpend : Option ℚ := none
  minOrdersPlaced : Option ℤ := none
  firstOrderOnly : Option Bool := none
  allowedCountries : Option (List String) := none
  minCartValue : Option ℚ := none
  applicableCategories : Option (List String) := none
  excludedCategories : Option (List String) := none
  minItemsCount : Option ℤ := none
deriving DecidableEq

/-- `CouponIn` model of `main.py` (the request body of coupon creation). -/
structure CouponIn where
  code : String
  description : String := ""
  discountType : DiscountType
  discountValue : ℚ
  maxDiscountAmount : Option ℚ := none
  startDate : ℤ
  endDate : ℤ
  usageLimitPerUser : Option ℤ := none
  eligibility : Option Eligibility := none
deriving DecidableEq

/-- A coupon's usage ledger: the `usage_count : Dict[str, int]` of
`CouponStored`, as an insertion-ordered association list userId ↦ count. -/
abbrev Ledger := List (String × ℕ)

/-- `CouponStored` model of `main.py`: the `CouponIn` fields plus the
generated `id` and the `usage_count` ledger.  `code` is kept exactly as
submitted (`create_coupon` normalizes only the storage key). -/
structure CouponStored where
  code : String
  description : String := ""
  discountType : DiscountType
  discountValue : ℚ
  maxDiscountAmount : Option ℚ := none
  startDate : ℤ
  endDate : ℤ
  usageLimitPerUser : Option ℤ := none
  eligibility : Option Eligibility := none
  id : String
  usage_count : Ledger := []
deriving DecidableEq

/-- `UserContext` model of `main.py`. -/
structure UserContext where
  userId : String
  userTier : Option String := none
  country : Option String := none
  lifetimeSpend : Option ℚ := some 0
  ordersPlaced : Option ℤ := some 0
deriving DecidableEq

/-- `CartItem` model of `main.py` (`unitPrice` validated `≥ 0`,
`quantity` validated `≥ 1`; those bounds appear as hypotheses where a
theorem needs them). -/
structure CartItem where
  productId : String
  category : String
  unitPrice : ℚ
  quantity : ℕ
deriving DecidableEq

/-- `Cart` model of `main.py`. -/
structure Cart where
  items : List CartItem
deriving DecidableEq

/-- `compute_cart_value` of `main.py`: Σ unitPrice × quantity. -/
def compute_cart_value (cart : Cart) : ℚ :=
  (cart.items.map (fun item => item.unitPrice * (item.quantity : ℚ))).sum

/-- `total_items_count` of `main.py`: Σ quantity. -/
def total_items_count (cart : Cart) : ℕ :=
  (cart.items.map (fun item => item.quantity)).sum

/-- `categories_in_cart` of `main.py`. -/
def categories_in_cart (cart : Cart) : List String :=
  cart.items.map (fun item => item.category)

/-- `dict.get(userId, 0)` on a ledger: count of a user, defaulting to 0. -/
def ledgerGet (led : Ledger) (userId : String) : ℕ :=
  match led.find? (fun p => p.1 == userId) with
  | none => 0
  | some p => p.2

/-- `d[userId] = d.get(userId, 0) + 1` on a ledger: bump the count in
place if the key exists, else append it (Python dicts append new keys). -/
def ledgerIncr (led : Ledger) (userId : String) : Ledger :=
  match led with
  | [] => [(userId, 1)]
  | (k, v) :: rest =>
    if k = userId then (k, v + 1) :: rest
    else (k, v) :: ledgerIncr rest userId

/-- `coupon_within_dates` of `main.py` with the wall clock made explicit:
`startDate ≤ now ≤ endDate`, inclusive on both ends. -/
def coupon_within_dates (c : CouponStored) (now : ℤ) : Prop :=
  c.startDate ≤ now ∧ now ≤ c.endDate

instance (c : CouponStored) (now : ℤ) : Decidable (coupon_within_dates c now) := by
  unfold coupon_within_dates; infer_instance

/-- `usage_within_limit` of `main.py`: `usageLimitPerUser` absent, or the
ledger count of `userId` (default 0) is `< usageLimitPerUser`. -/
def usage_within_limit (c : CouponStored) (userId : String) : Prop :=
  match c.usageLimitPerUser with
  | none => True
  | some lim => (ledgerGet c.usage_count userId : ℤ) < lim

instance (c : CouponStored) (userId : String) : Decidable (usage_within_limit c userId) := by
  unfold usage_within_limit
  cases c.usageLimitPerUser <;> infer_instance

/-- Python truthiness of an `Optional[List[str]]`: `None` and `[]` are
falsy, a non-empty list is truthy.  Each `if e.field and …` guard of
`eligibility_satisfied` tests this first. -/
def listTruthy (o : Option (List String)) : Bool :=
  match o with
  | none => false
  | some l => !l.isEmpty

/-- Python `v in l` where `v` is an `Optional[str]` and `l` a list of
strings: `None` is never a member. -/
def optMem (v : Option String) (l : List String) : Bool :=
  match v with
  | none => false
  | some s => l.contains s

/-- Python `bool(set l₁ & set l₂)`: the two category lists intersect. -/
def listInter (l₁ l₂ : List String) : Bool :=
  l₁.any (fun s => l₂.contains s)

/-- `eligibility_satisfied` of `main.py`: the sequential guard chain over
the optional predicates, in source order.  Each `if e.field and …` guard
of the Python is one `if` here; list-valued fields are guarded by Python
truthiness (`listTruthy`), `Optional[float]`/`Optional[int]` fields by
`is not None`, and `user.field or 0` is `Option.getD _ 0`. -/
def eligibility_satisfied (c : CouponStored) (user : UserContext) (cart : Cart) : Bool :=
  match c.eligibility with
  | none => true
  | some e =>
    if listTruthy e.allowedUserTiers && !optMem user.userTier (e.allowedUserTiers.getD []) then
      false
    else if (match e.minLifetimeSpend with
             | none => false
             | some m => decide (user.lifetimeSpend.getD 0 < m)) then
      false
    else if (match e.minOrdersPlaced with
             | none => false
             | some m => decide (user.ordersPlaced.getD 0 < m)) then
      false
    else if e.firstOrderOnly.getD false && decide (user.ordersPlaced.getD 0 ≠ 0) then
      false
    else if listTruthy e.allowedCountries && !optMem user.country (e.allowedCountries.getD []) then
      false
    else if (match e.minCartValue with
             | none => false
             | some m => decide (compute_cart_value cart < m)) then
      false
    else if listTruthy e.applicableCategories &&
        !listInter (categories_in_cart cart) (e.applicableCategories.getD []) then
      false
    else if listTruthy e.excludedCategories &&
        listInter (categories_in_cart cart) (e.excludedCategories.getD []) then
      false
    else if (match e.minItemsCount with
             | none => false
             | some m => decide ((total_items_count cart : ℤ) < m)) then
      false
    else
      true

/-- `compute_discount_amount` of `main.py`: FLAT caps at the cart value,
PERCENT optionally caps at `maxDiscountAmount`; no rounding here. -/
def compute_discount_amount (c : CouponStored) (cart_value : ℚ) : ℚ :=
  match c.discountType with
  | .FLAT => min cart_value c.discountValue
  | .PERCENT =>
    match c.maxDiscountAmount with
    | none => c.discountValue / 100 * cart_value
    | some m => min (c.discountValue / 100 * cart_value) m

/-- Round a rational to the nearest integer, ties to even (Python's
`round`). -/
def roundHalfEven (q : ℚ) : ℤ :=
  if q - ⌊q⌋ < 1 / 2 then ⌊q⌋
  else if 1 / 2 < q - ⌊q⌋ then ⌊q⌋ + 1
  else if ⌊q⌋ % 2 = 0 then ⌊q⌋ else ⌊q⌋ + 1

/-- Python `round(x, 2)`: round to two decimal places, ties to even. -/
def round2 (q : ℚ) : ℚ := (roundHalfEven (q * 100) : ℚ) / 100

/-- ASCII whitespace, as stripped by `str.strip()` on the codes the
service handles. -/
def isPySpace (c : Char) : Bool :=
  c == ' ' || c == '\t' || c == '\n' || c == '\r'

/-- `str.strip()` on a list of characters: drop whitespace at both ends. -/
def pyStrip (l : List Char) : List Char :=
  ((l.dropWhile isPySpace).reverse.dropWhile isPySpace).reverse

/-- `str.upper()` on one character (ASCII letters). -/
def pyUpperChar (c : Char) : Char :=
  if 'a' ≤ c && c ≤ 'z' then Char.ofNat (c.toNat - 32) else c

/-- `code.strip().upper()`: the code normalization used by
`create_coupon` and `redeem` in `main.py`. -/
def normalizeCode (s : String) : String :=
  ⟨(pyStrip s.data).map pyUpperChar⟩

/-- Python string `<` on two character lists: code-point lexicographic. -/
def strLtB : List Char → List Char → Bool
  | [], [] => false
  | [], _ :: _ => true
  | _ :: _, [] => false
  | a :: as, b :: bs =>
    if a < b then true
    else if a = b then strLtB as bs
    else false

/-- Python string `<`: code-point lexicographic comparison. -/
def codeLt (a b : String) : Bool := strLtB a.data b.data

/-- The module-level `coupons : Dict[str, CouponStored]` of `main.py`:
an insertion-ordered association list keyed by the normalized code. -/
abbrev Store := List (String × CouponStored)

/-- `coupons[key]` lookup (`key in coupons` is `(storeGet …).isSome`). -/
def storeGet (s : Store) (key : String) : Option CouponStored :=
  match s.find? (fun p => p.1 == key) with
  | none => none
  | some p => some p.2

/-- `coupons[key] = c` when `key` is already present: replace that
entry's coupon, keeping dict order (models `redeem`'s in-place mutation
of the stored coupon object). -/
def storeSet (s : Store) (key : String) (c : CouponStored) : Store :=
  s.map (fun p => if p.1 == key then (p.1, c) else p)

/-- The errors the service raises: pydantic validation, duplicate code
on creation, and the `HTTPException`s of `redeem` in `main.py`, in gate
order (404 not-found, then the four 400 reasons). -/
inductive ServiceError where
  | validationFailed
  | duplicateCode
  | codeNotFound
  | dateWindow
  | usageLimit
  | eligibilityFailed
  | zeroDiscount
deriving DecidableEq

/-- Pydantic validation of a `CouponIn` before it reaches
`create_coupon`: `discountValue` must be `> 0` (`Field(gt=0)`) and the
`end_after_start` validator rejects `endDate < startDate`. -/
def validateCouponIn (cin : CouponIn) : Except ServiceError CouponIn :=
  if cin.discountValue ≤ 0 then .error .validationFailed
  else if cin.endDate < cin.startDate then .error .validationFailed
  else .ok cin

/-- `create_coupon` of `main.py` in state-passing style.  The generated
`uuid4()` is the explicit `newId` argument.  The timezone fix-up of
naive datetimes is the identity here (dates are already instants). -/
def create_coupon (s : Store) (cin : CouponIn) (newId : String) :
    Except ServiceError CouponStored × Store :=
  let key := normalizeCode cin.code
  if (storeGet s key).isSome then
    (.error .duplicateCode, s)
  else
    let stored : CouponStored :=
      { code := cin.code
        description := cin.description
        discountType := cin.discountType
        discountValue := cin.discountValue
        maxDiscountAmount := cin.maxDiscountAmount
        startDate := cin.startDate
        endDate := cin.endDate
        usageLimitPerUser := cin.usageLimitPerUser
        eligibility := cin.eligibility
        id := newId
        usage_count := [] }
    (.ok stored, s ++ [(key, stored)])

/-- The coupon dict returned by `best_coupon` after
`coupon_out.pop("usage_count", None)`: every stored field except the
usage ledger. -/
structure CouponOut where
  code : String
  description : String
  discountType : DiscountType
  discountValue : ℚ
  maxDiscountAmount : Option ℚ
  startDate : ℤ
  endDate : ℤ
  usageLimitPerUser : Option ℤ
  eligibility : Option Eligibility
  id : String
deriving DecidableEq

/-- Drop the `usage_count` key from a stored coupon's dict (the masking
done by `best_coupon` before returning the winner). -/
def redact (c : CouponStored) : CouponOut :=
  { code := c.code
    description := c.description
    discountType := c.discountType
    discountValue := c.discountValue
    maxDiscountAmount := c.maxDiscountAmount
    startDate := c.startDate
    endDate := c.endDate
    usageLimitPerUser := c.usageLimitPerUser
    eligibility := c.eligibility
    id := c.id }

/-- `BestCouponResponse` of `main.py`. -/
structure BestCouponResponse where
  coupon : Option CouponOut
  discountAmount : Option ℚ
  reason : Option String
deriving DecidableEq

/-- The filtering loop of `best_coupon` in `main.py`: walk the store in
dict order, apply the four gates (date window, usage limit, eligibility,
positive discount) and collect each survivor with its rounded discount. -/
def candidates (s : Store) (user : UserContext) (cart : Cart) (now : ℤ) :
    List (CouponStored × ℚ) :=
  s.filterMap (fun p =>
    let c := p.2
    if coupon_within_dates c now then
      if usage_within_limit c user.userId then
        if eligibility_satisfied c user cart then
          let discount := compute_discount_amount c (compute_cart_value cart)
          if discount ≤ 0 then none
          else some (c, round2 discount)
        else none
      else none
    else none)

/-- Strict comparison of two candidates under the sort key
`(-discount, endDate, code)` of `best_coupon` (`discount` is already
rounded in the candidate pair; `code` is the stored, as-submitted code). -/
def candLT (x y : CouponStored × ℚ) : Prop :=
  y.2 < x.2 ∨
    (x.2 = y.2 ∧
      (x.1.endDate < y.1.endDate ∨
        (x.1.endDate = y.1.endDate ∧ codeLt x.1.code y.1.code = true)))

instance (x y : CouponStored × ℚ) : Decidable (candLT x y) := by
  unfold candLT; infer_instance

/-- `eligible_candidates.sort(key=…); eligible_candidates[0]`: the first
element of the stable sort under the key order, i.e. the leftmost
candidate no other candidate strictly beats. -/
def pickBest : List (CouponStored × ℚ) → Option (CouponStored × ℚ)
  | [] => none
  | x :: xs => some (xs.foldl (fun best y => if candLT y best then y else best) x)

/-- `best_coupon` of `main.py` with the wall clock explicit: gate every
stored coupon, rank the survivors, answer with the redacted winner (or
the empty result). -/
def best_coupon (s : Store) (user : UserContext) (cart : Cart) (now : ℤ) :
    BestCouponResponse :=
  match pickBest (candidates s user cart now) with
  | none =>
    { coupon := none, discountAmount := some 0, reason := some "No eligible coupons" }
  | some (c, d) =>
    { coupon := some (redact c), discountAmount := some d, reason := some "OK" }

/-- The `/best-coupon` endpoint as a state transformer: it reads the
store and writes nothing back. -/
def best_coupon_call (s : Store) (user : UserContext) (cart : Cart) (now : ℤ) :
    BestCouponResponse × Store :=
  (best_coupon s user cart now, s)

/-- The success body of `/redeem/{code}`. -/
structure RedeemOk where
  coupon : String
  discountAmount : ℚ
deriving DecidableEq

/-- `redeem` of `main.py` in state-passing style: normalize the path
code, look it up, run the four gates in source order, and on success
bump the user's ledger count on that coupon and return the freshly
rounded discount. -/
def redeem (s : Store) (rawCode : String) (user : UserContext) (cart : Cart) (now : ℤ) :
    Except ServiceError RedeemOk × Store :=
  let key := normalizeCode rawCode
  match storeGet s key with
  | none => (.error .codeNotFound, s)
  | some c =>
    if ¬ coupon_within_dates c now then (.error .dateWindow, s)
    else if ¬ usage_within_limit c user.userId then (.error .usageLimit, s)
    else if eligibility_satisfied c user cart = false then (.error .eligibilityFailed, s)
    else
      let discount := compute_discount_amount c (compute_cart_value cart)
      if discount ≤ 0 then (.error .zeroDiscount, s)
      else
        let c₂ : CouponStored :=
          { c with usage_count := ledgerIncr c.usage_count user.userId }
        (.ok { coupon := c.code, discountAmount := round2 discount }, storeSet s key c₂)

/-! ### Order lemmas for the ranking key -/

theorem strEq_of_data {a b : String} (h : a.data = b.data) : a = b := by
  cases a; cases b
  exact congrArg String.mk h

theorem strLtB_irrefl : ∀ l : List Char, strLtB l l = false := by
  intro l
  induction l with
  | nil => rfl
  | cons a as ih => simp [strLtB, ih]

theorem strLtB_trans : ∀ a b c : List Char,
    strLtB a b = true → strLtB b c = true → strLtB a c = true := by
  intro a
  induction a with
  | nil =>
    intro b c hab hbc
    cases b with
    | nil => simp [strLtB] at hab
    | cons y ys =>
      cases c with
      | nil => simp [strLtB] at hbc
      | cons z zs => simp [strLtB]
  | cons x xs ih =>
    intro b c hab hbc
    cases b with
    | nil => simp [strLtB] at hab
    | cons y ys =>
      cases c with
      | nil => simp [strLtB] at hbc
      | cons z zs =>
        by_cases hxy : x < y
        · by_cases hyz : y < z
          · simp [strLtB, lt_trans hxy hyz]
          · simp only [strLtB, hyz, if_false, if_neg] at hbc
            by_cases hyz' : y = z
            · subst hyz'; simp [strLtB, hxy]
            · simp [hyz, hyz'] at hbc
        · by_cases hxy' : x = y
          · subst hxy'
            simp only [strLtB, hxy, if_neg, lt_irrefl, if_false, if_pos rfl] at hab
            by_cases hyz : x < z
            · simp [strLtB, hyz]
            · by_cases hyz' : x = z
              · subst hyz'
                simp only [strLtB, lt_irrefl, if_false, if_pos rfl] at hbc ⊢
                exact ih ys zs hab hbc
              · simp [strLtB, hyz, hyz'] at hbc
          · simp [strLtB, hxy, hxy'] at hab

theorem strLtB_total : ∀ a b : List Char,
    strLtB a b = true ∨ strLtB b a = true ∨ a = b := by
  intro a
  induction a with
  | nil =>
    intro b
    cases b with
    | nil => right; right; rfl
    | cons y ys => left; simp [strLtB]
  | cons x xs ih =>
    intro b
    cases b with
    | nil => right; left; simp [strLtB]
    | cons y ys =>
      rcases lt_trichotomy x y with hxy | hxy | hxy
      · left; simp [strLtB, hxy]
      · subst hxy
        rcases ih ys with h | h | h
        · left; simp [strLtB, h]
        · right; left; simp [strLtB, h]
        · right; right; rw [h]
      · right; left; simp [strLtB, hxy]

theorem codeLt_irrefl (a : String) : codeLt a a = false :=
  strLtB_irrefl a.data

theorem codeLt_trans {a b c : String} (h₁ : codeLt a b = true) (h₂ : codeLt b c = true) :
    codeLt a c = true :=
  strLtB_trans a.data b.data c.data h₁ h₂

theorem codeLt_total (a b : String) :
    codeLt a b = true ∨ codeLt b a = true ∨ a = b := by
  rcases strLtB_total a.data b.data with h | h | h
  · exact Or.inl h
  · exact Or.inr (Or.inl h)
  · exact Or.inr (Or.inr (strEq_of_data h))

/-- Non-strict version of the ranking order of `best_coupon`: `x` sorts
no later than `y` under the key `(-discount, endDate, code)`. -/
def ranksBefore (x y : CouponStored × ℚ) : Prop :=
  y.2 < x.2 ∨
    (x.2 = y.2 ∧
      (x.1.endDate < y.1.endDate ∨
        (x.1.endDate = y.1.endDate ∧
          (codeLt x.1.code y.1.code = true ∨ x.1.code = y.1.code))))

theorem ranksBefore_refl (x : CouponStored × ℚ) : ranksBefore x x :=
  Or.inr ⟨rfl, Or.inr ⟨rfl, Or.inr rfl⟩⟩

theorem candLT_ranksBefore {x y : CouponStored × ℚ} (h : candLT x y) : ranksBefore x y := by
  rcases h with h | ⟨h₁, h | ⟨h₂, h₃⟩⟩
  · exact Or.inl h
  · exact Or.inr ⟨h₁, Or.inl h⟩
  · exact Or.inr ⟨h₁, Or.inr ⟨h₂, Or.inl h₃⟩⟩

theorem not_candLT_ranksBefore {x y : CouponStored × ℚ} (h : ¬ candLT y x) :
    ranksBefore x y := by
  unfold candLT at h
  push_neg at h
  rcases lt_trichotomy x.2 y.2 with hq | hq | hq
  · exact absurd hq (not_lt.mpr h.1)
  · refine Or.inr ⟨hq, ?_⟩
    have h' := h.2 hq.symm
    rcases lt_trichotomy x.1.endDate y.1.endDate with hd | hd | hd
    · exact Or.inl hd
    · refine Or.inr ⟨hd, ?_⟩
      have h'' := h'.2 hd.symm
      rcases codeLt_total x.1.code y.1.code with hc | hc | hc
      · exact Or.inl hc
      · exact absurd hc h''
      · exact Or.inr hc
    · exact absurd hd (not_lt.mpr h'.1)
  · exact Or.inl hq

theorem ranksBefore_trans {x y z : CouponStored × ℚ}
    (h₁ : ranksBefore x y) (h₂ : ranksBefore y z) : ranksBefore x z := by
  rcases h₁ with hq₁ | ⟨hq₁, hd₁⟩
  · rcases h₂ with hq₂ | ⟨hq₂, _⟩
    · exact Or.inl (lt_trans hq₂ hq₁)
    · exact Or.inl (hq₂ ▸ hq₁)
  · rcases h₂ with hq₂ | ⟨hq₂, hd₂⟩
    · exact Or.inl (hq₁ ▸ hq₂)
    · refine Or.inr ⟨hq₁.trans hq₂, ?_⟩
      rcases hd₁ with hd₁ | ⟨he₁, hc₁⟩
      · rcases hd₂ with hd₂ | ⟨he₂, _⟩
        · exact Or.inl (lt_trans hd₁ hd₂)
        · exact Or.inl (he₂ ▸ hd₁)
      · rcases hd₂ with hd₂ | ⟨he₂, hc₂⟩
        · exact Or.inl (he₁ ▸ hd₂)
        · refine Or.inr ⟨he₁.trans he₂, ?_⟩
          rcases hc₁ with hc₁ | hc₁
          · rcases hc₂ with hc₂ | hc₂
            · exact Or.inl (codeLt_trans hc₁ hc₂)
            · exact Or.inl (hc₂ ▸ hc₁)
          · rcases hc₂ with hc₂ | hc₂
            · exact Or.inl (hc₁ ▸ hc₂)
            · exact Or.inr (hc₁.trans hc₂)

theorem foldBest_spec (xs : List (CouponStored × ℚ)) :
    ∀ x : CouponStored × ℚ,
      (xs.foldl (fun best y => if candLT y best then y else best) x = x ∨
        xs.foldl (fun best y => if candLT y best then y else best) x ∈ xs) ∧
      ranksBefore (xs.foldl (fun best y => if candLT y best then y else best) x) x ∧
      ∀ y ∈ xs, ranksBefore (xs.foldl (fun best y => if candLT y best then y else best) x) y := by
  induction xs with
  | nil => exact fun x => ⟨Or.inl rfl, ranksBefore_refl x, by simp⟩
  | cons y ys ih =>
    intro x
    simp only [List.foldl_cons]
    by_cases h : candLT y x
    · rw [if_pos h]
      obtain ⟨hmem, hry, hall⟩ := ih y
      refine ⟨?_, ?_, ?_⟩
      · rcases hmem with hmem | hmem
        · exact Or.inr (by rw [hmem]; exact List.mem_cons_self y ys)
        · exact Or.inr (List.mem_cons_of_mem _ hmem)
      · exact ranksBefore_trans hry (candLT_ranksBefore h)
      · intro z hz
        rcases List.mem_cons.mp hz with rfl | hz
        · exact hry
        · exact hall z hz
    · rw [if_neg h]
      obtain ⟨hmem, hrx, hall⟩ := ih x
      refine ⟨?_, hrx, ?_⟩
      · rcases hmem with hmem | hmem
        · exact Or.inl hmem
        · exact Or.inr (List.mem_cons_of_mem _ hmem)
      · intro z hz
        rcases List.mem_cons.mp hz with rfl | hz
        · exact ranksBefore_trans hrx (not_candLT_ranksBefore h)
        · exact hall z hz

theorem pickBest_mem_rank {l : List (CouponStored × ℚ)} {w : CouponStored × ℚ}
    (h : pickBest l = some w) : w ∈ l ∧ ∀ y ∈ l, ranksBefore w y := by
  cases l with
  | nil => cases h
  | cons x xs =>
    unfold pickBest at h
    injection h with h
    obtain ⟨hmem, hrx, hall⟩ := foldBest_spec xs x
    rw [h] at hmem hrx hall
    constructor
    · rcases hmem with hmem | hmem
      · exact hmem ▸ List.mem_cons_self x xs
      · exact List.mem_cons_of_mem _ hmem
    · intro y hy
      rcases List.mem_cons.mp hy with rfl | hy
      · exact hrx
      · exact hall y hy

theorem pickBest_of_ne_nil {l : List (CouponStored × ℚ)} (h : l ≠ []) :
    ∃ w, pickBest l = some w := by
  cases l with
  | nil => exact absurd rfl h
  | cons x xs => exact ⟨_, rfl⟩

/-! ### Ledger and candidate lemmas -/

theorem ledgerGet_incr_self (led : Ledger) (u : String) :
    ledgerGet (ledgerIncr led u) u = ledgerGet led u + 1 := by
  induction led with
  | nil => simp [ledgerIncr, ledgerGet, List.find?]
  | cons p rest ih =>
    obtain ⟨k, v⟩ := p
    by_cases h : k = u
    · subst h
      simp [ledgerIncr, ledgerGet, List.find?]
    · have hb : (k == u) = false := beq_eq_false_iff_ne.mpr h
      simp only [ledgerIncr, if_neg h, ledgerGet, List.find?, hb]
      exact ih

theorem candidates_mem {s : Store} {user : UserContext} {cart : Cart} {now : ℤ}
    {c : CouponStored} {d : ℚ} (h : (c, d) ∈ candidates s user cart now) :
    (∃ key, (key, c) ∈ s) ∧
    coupon_within_dates c now ∧
    usage_within_limit c user.userId ∧
    eligibility_satisfied c user cart = true ∧
    0 < compute_discount_amount c (compute_cart_value cart) ∧
    d = round2 (compute_discount_amount c (compute_cart_value cart)) := by
  unfold candidates at h
  rw [List.mem_filterMap] at h
  obtain ⟨⟨key, c₀⟩, hmem, hf⟩ := h
  dsimp only at hf
  split_ifs at hf with h₁ h₂ h₃ h₄
  cases hf
  exact ⟨⟨key, hmem⟩, h₁, h₂, h₃, not_le.mp h₄, rfl⟩

/-! ### Claim C6 -/

/-- Modelled from the spec (§4.2): FLAT gives `min(cartValue,
discountValue)`; PERCENT computes `raw = (discountValue / 100) *
cartValue` and caps it at `maxDiscountAmount` exactly when that field is
set.  No rounding appears in the formula. -/
def computeDiscountSpec (c : CouponStored) (cartValue : ℚ) : ℚ :=
  if c.discountType = .FLAT then
    min cartValue c.discountValue
  else
    let raw := (c.discountValue / 100) * cartValue
    match c.maxDiscountAmount with
    | some cap => min raw cap
    | none => raw

/-- C6: for every coupon and cart value, `compute_discount_amount` equals
the spec's formula — FLAT: min(cartValue, discountValue); PERCENT: raw =
(discountValue/100)·cartValue, capped at maxDiscountAmount exactly when
set — with no rounding at this layer. -/
theorem claim_C6 (c : CouponStored) (v : ℚ) :
    compute_discount_amount c v = computeDiscountSpec c v := by
  unfold compute_discount_amount computeDiscountSpec
  cases hty : c.discountType
  · simp
  · cases hcap : c.maxDiscountAmount <;> simp

/-! ### Claim C5 -/

/-- A PERCENT coupon whose `maxDiscountAmount` is negative.  Nothing in
`CouponIn` validation forbids it (`discountValue` has `gt=0` but
`maxDiscountAmount` is unconstrained), and `compute_discount_amount`
then returns that negative cap. -/
def negCapCoupon : CouponStored :=
  { code := "NEGCAP"
    discountType := .PERCENT
    discountValue := 10
    maxDiscountAmount := some (-5)
    startDate := 0
    endDate := 10
    id := "id-negcap" }

/-- C5 counterexample: a constructible coupon (positive discountValue,
endDate ≥ startDate, so it passes `CouponIn` validation) and a cart
value ≥ 0 for which `compute_discount_amount` is negative, refuting
"computeDiscount returns an amount ≥ 0 for every coupon". -/
theorem claim_C5_counterexample :
    0 < negCapCoupon.discountValue ∧
    negCapCoupon.startDate ≤ negCapCoupon.endDate ∧
    validateCouponIn
      { code := "NEGCAP", discountType := .PERCENT, discountValue := 10,
        maxDiscountAmount := some (-5), startDate := 0, endDate := 10 } =
      .ok { code := "NEGCAP", discountType := .PERCENT, discountValue := 10,
            maxDiscountAmount := some (-5), startDate := 0, endDate := 10 } ∧
    (0:ℚ) ≤ 100 ∧
    compute_discount_amount negCapCoupon 100 < 0 := by
  refine ⟨by norm_num [negCapCoupon], by norm_num [negCapCoupon], ?_, by norm_num, ?_⟩
  · norm_num [validateCouponIn]
  · norm_num [negCapCoupon, compute_discount_amount, min_def]

/-- C5 (amended): a FLAT discount never exceeds the cart value and a
PERCENT discount never exceeds a set `maxDiscountAmount`, both
unconditionally; the amount is ≥ 0 for every cart value ≥ 0 provided a
cap set on a PERCENT coupon is nonnegative (a negative cap, which
validation accepts, is returned as a negative amount). -/
theorem claim_C5 (c : CouponStored) (v : ℚ) :
    (c.discountType = .FLAT → compute_discount_amount c v ≤ v) ∧
    (∀ m, c.discountType = .PERCENT → c.maxDiscountAmount = some m →
      compute_discount_amount c v ≤ m) ∧
    (0 ≤ v → 0 < c.discountValue →
      (c.discountType = .PERCENT → ∀ m, c.maxDiscountAmount = some m → 0 ≤ m) →
      0 ≤ compute_discount_amount c v) := by
  unfold compute_discount_amount
  cases hty : c.discountType
  · refine ⟨fun _ => min_le_left _ _, ?_, ?_⟩
    · intro m hty' _
      cases hty'
    · intro hv hdv _
      exact le_min hv hdv.le
  · cases hcapv : c.maxDiscountAmount with
    | none =>
      refine ⟨?_, ?_, ?_⟩
      · intro hty'; cases hty'
      · intro m _ hm
        cases hm
      · intro hv hdv _
        exact mul_nonneg (div_nonneg hdv.le (by norm_num)) hv
    | some m' =>
      refine ⟨?_, ?_, ?_⟩
      · intro hty'; cases hty'
      · intro m _ hm
        rw [Option.some_inj] at hm
        rw [← hm]
        exact min_le_right _ _
      · intro hv hdv hcap
        exact le_min (mul_nonneg (div_nonneg hdv.le (by norm_num)) hv) (hcap rfl m' rfl)

/-- The seeded `GOLD10` coupon of `main.py` (PERCENT 10, cap 500). -/
def goldCoupon : CouponStored :=
  { code := "GOLD10"
    description := "10 percent off up to 500 for GOLD users"
    discountType := .PERCENT
    discountValue := 10
    maxDiscountAmount := some 500
    startDate := 0
    endDate := 60
    eligibility := some { allowedUserTiers := some ["GOLD"], minCartValue := some 1000 }
    id := "id-gold" }

/-- C5 witness: the amended bounds instantiated on the seeded `GOLD10`
coupon at cart value 6000 (raw 600, capped at 500) and — for the
unconditional cap bound — on the negative-cap coupon of the
counterexample. -/
theorem claim_C5_witness :
    (goldCoupon.discountType = .PERCENT ∧ goldCoupon.maxDiscountAmount = some 500 ∧
      (0:ℚ) ≤ 6000 ∧ 0 < goldCoupon.discountValue) ∧
    compute_discount_amount goldCoupon 6000 ≤ 500 ∧
    0 ≤ compute_discount_amount goldCoupon 6000 ∧
    compute_discount_amount negCapCoupon 100 ≤ -5 := by
  have hty : goldCoupon.discountType = .PERCENT := rfl
  have hcapeq : goldCoupon.maxDiscountAmount = some 500 := rfl
  have hcap : goldCoupon.discountType = .PERCENT →
      ∀ m, goldCoupon.maxDiscountAmount = some m → 0 ≤ m := by
    intro _ m hm
    simp only [goldCoupon] at hm
    cases hm
    norm_num
  refine ⟨⟨hty, hcapeq, by norm_num, by norm_num [goldCoupon]⟩, ?_, ?_, ?_⟩
  · exact (claim_C5 goldCoupon 6000).2.1 500 hty hcapeq
  · exact (claim_C5 goldCoupon 6000).2.2 (by norm_num) (by norm_num [goldCoupon]) hcap
  · exact (claim_C5 negCapCoupon 100).2.1 (-5) rfl rfl

/-! ### Claim C8 -/

/-- C8: the `/best-coupon` endpoint is pure — in state-passing form it
returns the store unchanged, and a repeated call with the same (user,
cart, now) on the store it left behind yields the identical response;
the wall clock enters only through the explicit `now` argument. -/
theorem claim_C8 (s : Store) (user : UserContext) (cart : Cart) (now : ℤ) :
    (best_coupon_call s user cart now).2 = s ∧
    (best_coupon_call (best_coupon_call s user cart now).2 user cart now).1 =
      (best_coupon_call s user cart now).1 :=
  ⟨rfl, rfl⟩

/-! ### Claim C9 -/

/-- C9: whenever `best_coupon` returns a winning coupon, that returned
representation is `redact` of a stored coupon — a value of `CouponOut`,
which carries no `usage_count` field — and `redact` is invariant under
any change of the ledger, so no usage data reaches the response. -/
theorem claim_C9 (s : Store) (user : UserContext) (cart : Cart) (now : ℤ) :
    (∀ co, (best_coupon s user cart now).coupon = some co →
      ∃ c, (∃ key, (key, c) ∈ s) ∧ co = redact c) ∧
    (∀ c led, redact { c with usage_count := led } = redact c) := by
  constructor
  · intro co hco
    unfold best_coupon at hco
    cases hpb : pickBest (candidates s user cart now) with
    | none => rw [hpb] at hco; cases hco
    | some w =>
      obtain ⟨wc, wd⟩ := w
      rw [hpb] at hco
      simp only [Option.some_inj] at hco
      obtain ⟨hmem, _⟩ := pickBest_mem_rank hpb
      obtain ⟨⟨key, hkey⟩, _⟩ := candidates_mem hmem
      exact ⟨wc, ⟨key, hkey⟩, hco.symm⟩
  · intro c led
    rfl

/-- A plain PERCENT coupon used in concrete runs: no eligibility rules,
no usage limit, 20 percent, valid from 0 to 100. -/
def wCoupon : CouponStored :=
  { code := "SAVE20"
    discountType := .PERCENT
    discountValue := 20
    startDate := 0
    endDate := 100
    id := "id-w" }

/-- A one-coupon store holding `wCoupon` under its normalized code. -/
def wStore : Store := [("SAVE20", wCoupon)]

/-- A user with no tier or country. -/
def wUser : UserContext := { userId := "u1" }

/-- A one-item cart of value 50. -/
def wCart : Cart := ⟨[⟨"p1", "electronics", 50, 1⟩]⟩

/-- The candidate list of the concrete run used by several witnesses. -/
theorem wStore_candidates : candidates wStore wUser wCart 10 = [(wCoupon, 10)] := by
  norm_num [candidates, wStore, wCoupon, wUser, wCart, coupon_within_dates,
    usage_within_limit, eligibility_satisfied, compute_discount_amount,
    compute_cart_value, round2, roundHalfEven, List.filterMap_cons]

/-- The concrete best-coupon run behind several witnesses: the single
surviving candidate wins with rounded amount 10. -/
theorem wStore_best :
    best_coupon wStore wUser wCart 10 =
      { coupon := some (redact wCoupon), discountAmount := some 10, reason := some "OK" } := by
  rw [best_coupon, wStore_candidates]
  rfl

/-- C9 witness: on the concrete one-coupon store the response exposes
exactly `redact wCoupon`, and claim C9 recovers it as the redaction of a
stored coupon. -/
theorem claim_C9_witness :
    (best_coupon wStore wUser wCart 10).coupon = some (redact wCoupon) ∧
    (∃ c, (∃ key, (key, c) ∈ wStore) ∧ redact wCoupon = redact c) ∧
    redact { wCoupon with usage_count := [("u1", 7)] } = redact wCoupon := by
  have hco : (best_coupon wStore wUser wCart 10).coupon = some (redact wCoupon) := by
    rw [wStore_best]
  exact ⟨hco, (claim_C9 wStore wUser wCart 10).1 (redact wCoupon) hco,
    (claim_C9 wStore wUser wCart 10).2 wCoupon [("u1", 7)]⟩

/-! ### Claim C2 -/

/-- C2 (amended): whenever at least one candidate survives the gates,
`best_coupon` returns a winner, and the winner is a surviving candidate
that ranks no later than every surviving candidate under the total order
(1) higher rounded discount first, (2) earlier endDate, (3)
lexicographically smaller *stored* (as-submitted) code — the sort key
uses `c.code` exactly as stored, not its normalized form. -/
theorem claim_C2 (s : Store) (user : UserContext) (cart : Cart) (now : ℤ) :
    (candidates s user cart now ≠ [] →
      ∃ w d, pickBest (candidates s user cart now) = some (w, d)) ∧
    (∀ w d, pickBest (candidates s user cart now) = some (w, d) →
      (w, d) ∈ candidates s user cart now ∧
      best_coupon s user cart now =
        { coupon := some (redact w), discountAmount := some d, reason := some "OK" } ∧
      ∀ y ∈ candidates s user cart now, ranksBefore (w, d) y) := by
  constructor
  · intro hne
    obtain ⟨w, hw⟩ := pickBest_of_ne_nil hne
    exact ⟨w.1, w.2, by rw [hw]⟩
  · intro w d hpb
    obtain ⟨hmem, hrank⟩ := pickBest_mem_rank hpb
    refine ⟨hmem, ?_, hrank⟩
    unfold best_coupon
    rw [hpb]

/-- C2 witness: the amended ranking law instantiated on the concrete
one-candidate run. -/
theorem claim_C2_witness :
    candidates wStore wUser wCart 10 ≠ [] ∧
    pickBest (candidates wStore wUser wCart 10) = some (wCoupon, 10) ∧
    (wCoupon, 10) ∈ candidates wStore wUser wCart 10 ∧
    ∀ y ∈ candidates wStore wUser wCart 10, ranksBefore (wCoupon, 10) y := by
  have hne : candidates wStore wUser wCart 10 ≠ [] := by
    rw [wStore_candidates]; simp
  have hpb : pickBest (candidates wStore wUser wCart 10) = some (wCoupon, 10) := by
    rw [wStore_candidates]; rfl
  have h := (claim_C2 wStore wUser wCart 10).2 wCoupon 10 hpb
  exact ⟨hne, hpb, h.1, h.2.2⟩

/-- A PERCENT-20 coupon submitted with the lower-case code `"a"`,
stored under the normalized key `"A"` but keeping `code = "a"`. -/
def rawAcoupon : CouponStored :=
  { code := "a"
    discountType := .PERCENT
    discountValue := 20
    startDate := 0
    endDate := 100
    id := "id-a" }

/-- A PERCENT-20 coupon with code `"B"`, tying with `rawAcoupon` on
rounded amount and endDate. -/
def rawBcoupon : CouponStored :=
  { code := "B"
    discountType := .PERCENT
    discountValue := 20
    startDate := 0
    endDate := 100
    id := "id-b" }

/-- The two-coupon store exhibiting the normalized-versus-stored code
discrepancy in the final tie-break. -/
def tieStore : Store := [("A", rawAcoupon), ("B", rawBcoupon)]

/-- C2 counterexample: both coupons survive with the same rounded amount
and endDate; the normalized code of `rawAcoupon` ("A") is
lexicographically smaller than that of `rawBcoupon` ("B"), so the claim
says `rawAcoupon` must win — but the service compares the stored codes
("B" < "a" by code points) and returns `rawBcoupon`. -/
theorem claim_C2_counterexample :
    (rawAcoupon, 10) ∈ candidates tieStore wUser wCart 10 ∧
    (rawBcoupon, 10) ∈ candidates tieStore wUser wCart 10 ∧
    rawAcoupon.endDate = rawBcoupon.endDate ∧
    codeLt (normalizeCode rawAcoupon.code) (normalizeCode rawBcoupon.code) = true ∧
    (best_coupon tieStore wUser wCart 10).coupon = some (redact rawBcoupon) ∧
    redact rawBcoupon ≠ redact rawAcoupon := by
  have hc : candidates tieStore wUser wCart 10 = [(rawAcoupon, 10), (rawBcoupon, 10)] := by
    norm_num [candidates, tieStore, rawAcoupon, rawBcoupon, wUser, wCart,
      coupon_within_dates, usage_within_limit, eligibility_satisfied,
      compute_discount_amount, compute_cart_value, round2, roundHalfEven,
      List.filterMap_cons]
  refine ⟨?_, ?_, by decide, by decide, ?_, by decide⟩
  · rw [hc]; simp
  · rw [hc]; simp
  · have hlt : candLT (rawBcoupon, 10) (rawAcoupon, 10) := by
      unfold candLT
      exact Or.inr ⟨rfl, Or.inr ⟨by decide, by decide⟩⟩
    have hpb : pickBest [(rawAcoupon, 10), (rawBcoupon, 10)] = some (rawBcoupon, 10) := by
      simp only [pickBest, List.foldl_cons, List.foldl_nil]
      rw [if_pos hlt]
    unfold best_coupon
    rw [hc, hpb]

/-! ### Claim C1 -/

/-- An eligibility rule set whose tier and country lists are present but
empty. -/
def eW : Eligibility := { allowedUserTiers := some [], allowedCountries := some [] }

/-- A coupon carrying `eW`: `allowedUserTiers = []`, `allowedCountries
= []`, all other predicates absent. -/
def emptyTiersCoupon : CouponStored :=
  { code := "EMPTYT"
    discountType := .FLAT
    discountValue := 50
    startDate := 0
    endDate := 100
    eligibility := some eW
    id := "id-c1" }

/-- C1 counterexample: a coupon with present-but-empty
`allowedUserTiers` and `allowedCountries` for which the eligibility
check succeeds (for a tier-less, country-less user), refuting "a present
empty list means nothing can match" — the Python guard `if e.field and …`
skips a falsy empty list entirely. -/
theorem claim_C1_counterexample :
    (emptyTiersCoupon.eligibility = some eW ∧
      eW.allowedUserTiers = some [] ∧ eW.allowedCountries = some []) ∧
    eligibility_satisfied emptyTiersCoupon wUser wCart = true := by
  exact ⟨⟨rfl, rfl, rfl⟩, by decide⟩

/-- Map a present-but-empty list to an absent one; keep an absent or
non-empty list unchanged. -/
def blankToNone (o : Option (List String)) : Option (List String) :=
  match o with
  | some [] => none
  | o => o

/-- Replace a present-but-empty tier list and a present-but-empty
country list by absent ones, each independently; anything else is kept. -/
def dropTierCountryLists (e : Eligibility) : Eligibility :=
  { e with allowedUserTiers := blankToNone e.allowedUserTiers,
           allowedCountries := blankToNone e.allowedCountries }

/-- C1 (amended): a present-but-empty `allowedUserTiers` or
`allowedCountries` list imposes no restriction at all — the eligibility
check behaves exactly as if that list were absent (None), each list
independently, for every user and cart. -/
theorem claim_C1 (c : CouponStored) (e : Eligibility) (user : UserContext) (cart : Cart)
    (he : c.eligibility = some e) :
    eligibility_satisfied c user cart =
      eligibility_satisfied { c with eligibility := some (dropTierCountryLists e) } user cart := by
  rcases htier : e.allowedUserTiers with _ | (_ | ⟨t, ts⟩) <;>
    rcases hctry : e.allowedCountries with _ | (_ | ⟨d, ds⟩) <;>
      simp [eligibility_satisfied, dropTierCountryLists, blankToNone, he, htier, hctry,
        listTruthy]

/-- An eligibility rule set with an empty tier list and an absent
country list. -/
def eW2 : Eligibility := { allowedUserTiers := some [] }

/-- A coupon carrying `eW2`: empty tier list, country list absent. -/
def tiersOnlyCoupon : CouponStored :=
  { code := "EMPTYT2"
    discountType := .FLAT
    discountValue := 50
    startDate := 0
    endDate := 100
    eligibility := some eW2
    id := "id-c1b" }

/-- C1 witness: the amended equivalence instantiated both on
`emptyTiersCoupon` (both lists present-but-empty) and on
`tiersOnlyCoupon` (empty tier list, country list absent). -/
theorem claim_C1_witness :
    (emptyTiersCoupon.eligibility = some eW ∧
      eW.allowedUserTiers = some [] ∧ eW.allowedCountries = some []) ∧
    eligibility_satisfied emptyTiersCoupon wUser wCart =
      eligibility_satisfied
        { emptyTiersCoupon with eligibility := some (dropTierCountryLists eW) }
        wUser wCart ∧
    (tiersOnlyCoupon.eligibility = some eW2 ∧
      eW2.allowedUserTiers = some [] ∧ eW2.allowedCountries = none) ∧
    eligibility_satisfied tiersOnlyCoupon wUser wCart =
      eligibility_satisfied
        { tiersOnlyCoupon with eligibility := some (dropTierCountryLists eW2) }
        wUser wCart :=
  ⟨⟨rfl, rfl, rfl⟩, claim_C1 emptyTiersCoupon eW wUser wCart rfl,
    ⟨rfl, rfl, rfl⟩, claim_C1 tiersOnlyCoupon eW2 wUser wCart rfl⟩

/-! ### Claim C3 -/

/-- Updating a present key and reading it back yields the new coupon
(`find?` hits the replaced entry first). -/
theorem storeGet_set_self {s : Store} {key : String} {c₀ c' : CouponStored}
    (h : storeGet s key = some c₀) :
    storeGet (storeSet s key c') key = some c' := by
  induction s with
  | nil => cases h
  | cons p rest ih =>
    obtain ⟨k, v⟩ := p
    by_cases hk : (k == key) = true
    · simp [storeGet, storeSet, List.find?, hk]
    · simp only [storeGet, storeSet, List.map_cons] at h ⊢
      rw [if_neg hk]
      rw [List.find?] at h ⊢
      simp only [hk] at h ⊢
      exact ih h

/-- C3: `redeem` fails with not-found when the normalized code is absent;
otherwise it applies the gates in the exact order date-window,
usage-limit, eligibility, positive-discount, failing at the first
failing gate with that gate's distinct error and an untouched store; on
success it returns the freshly computed rounded amount and bumps the
user's ledger count on that coupon by exactly one. -/
theorem claim_C3 (s : Store) (rawCode : String) (user : UserContext) (cart : Cart) (now : ℤ) :
    (storeGet s (normalizeCode rawCode) = none →
      redeem s rawCode user cart now = (.error .codeNotFound, s)) ∧
    (∀ c, storeGet s (normalizeCode rawCode) = some c →
      (¬ coupon_within_dates c now →
        redeem s rawCode user cart now = (.error .dateWindow, s)) ∧
      (coupon_within_dates c now → ¬ usage_within_limit c user.userId →
        redeem s rawCode user cart now = (.error .usageLimit, s)) ∧
      (coupon_within_dates c now → usage_within_limit c user.userId →
        eligibility_satisfied c user cart = false →
        redeem s rawCode user cart now = (.error .eligibilityFailed, s)) ∧
      (coupon_within_dates c now → usage_within_limit c user.userId →
        eligibility_satisfied c user cart = true →
        compute_discount_amount c (compute_cart_value cart) ≤ 0 →
        redeem s rawCode user cart now = (.error .zeroDiscount, s)) ∧
      (coupon_within_dates c now → usage_within_limit c user.userId →
        eligibility_satisfied c user cart = true →
        0 < compute_discount_amount c (compute_cart_value cart) →
        redeem s rawCode user cart now =
          (.ok { coupon := c.code,
                 discountAmount := round2 (compute_discount_amount c (compute_cart_value cart)) },
           storeSet s (normalizeCode rawCode)
             { c with usage_count := ledgerIncr c.usage_count user.userId }) ∧
        ∀ c₂, storeGet (redeem s rawCode user cart now).2 (normalizeCode rawCode) = some c₂ →
          ledgerGet c₂.usage_count user.userId = ledgerGet c.usage_count user.userId + 1)) := by
  constructor
  · intro h
    unfold redeem
    dsimp only
    rw [h]
  · intro c hget
    refine ⟨?_, ?_, ?_, ?_, ?_⟩
    · intro hdate
      unfold redeem
      dsimp only
      rw [hget]
      dsimp only
      rw [if_pos hdate]
    · intro hdate husage
      unfold redeem
      dsimp only
      rw [hget]
      dsimp only
      rw [if_neg (not_not_intro hdate), if_pos husage]
    · intro hdate husage helig
      unfold redeem
      dsimp only
      rw [hget]
      dsimp only
      rw [if_neg (not_not_intro hdate), if_neg (not_not_intro husage), if_pos helig]
    · intro hdate husage helig hle
      unfold redeem
      dsimp only
      rw [hget]
      dsimp only
      rw [if_neg (not_not_intro hdate), if_neg (not_not_intro husage),
        if_neg (by simp [helig]), if_pos hle]
    · intro hdate husage helig hpos
      have heq : redeem s rawCode user cart now =
          (.ok { coupon := c.code,
                 discountAmount := round2 (compute_discount_amount c (compute_cart_value cart)) },
           storeSet s (normalizeCode rawCode)
             { c with usage_count := ledgerIncr c.usage_count user.userId }) := by
        unfold redeem
        dsimp only
        rw [hget]
        dsimp only
        rw [if_neg (not_not_intro hdate), if_neg (not_not_intro husage),
          if_neg (by simp [helig]), if_neg (not_le.mpr hpos)]
      refine ⟨heq, ?_⟩
      intro c₂ hc₂
      rw [heq] at hc₂
      dsimp only at hc₂
      rw [storeGet_set_self hget, Option.some_inj] at hc₂
      rw [← hc₂]
      exact ledgerGet_incr_self c.usage_count user.userId

/-- The date-window gate of `redeem`, as a reusable equation. -/
theorem redeem_eq_dateWindow {s : Store} {rawCode : String} {user : UserContext}
    {cart : Cart} {now : ℤ} {c : CouponStored}
    (hget : storeGet s (normalizeCode rawCode) = some c)
    (hdate : ¬ coupon_within_dates c now) :
    redeem s rawCode user cart now = (.error .dateWindow, s) := by
  unfold redeem
  dsimp only
  rw [hget]
  dsimp only
  rw [if_pos hdate]

/-- The usage-limit gate of `redeem`, as a reusable equation. -/
theorem redeem_eq_usageLimit {s : Store} {rawCode : String} {user : UserContext}
    {cart : Cart} {now : ℤ} {c : CouponStored}
    (hget : storeGet s (normalizeCode rawCode) = some c)
    (hdate : coupon_within_dates c now)
    (husage : ¬ usage_within_limit c user.userId) :
    redeem s rawCode user cart now = (.error .usageLimit, s) := by
  unfold redeem
  dsimp only
  rw [hget]
  dsimp only
  rw [if_neg (not_not_intro hdate), if_pos husage]

/-- C3 witness: a successful concrete redemption — path code `"save20 "`
normalizes to the stored key, all four gates pass, the response carries
the freshly rounded amount, and the ledger entry appears with count 1. -/
theorem claim_C3_witness :
    storeGet wStore (normalizeCode "save20 ") = some wCoupon ∧
    coupon_within_dates wCoupon 10 ∧
    usage_within_limit wCoupon wUser.userId ∧
    eligibility_satisfied wCoupon wUser wCart = true ∧
    0 < compute_discount_amount wCoupon (compute_cart_value wCart) ∧
    redeem wStore "save20 " wUser wCart 10 =
      (.ok { coupon := wCoupon.code,
             discountAmount := round2 (compute_discount_amount wCoupon (compute_cart_value wCart)) },
       storeSet wStore (normalizeCode "save20 ")
         { wCoupon with usage_count := ledgerIncr wCoupon.usage_count wUser.userId }) := by
  have hget : storeGet wStore (normalizeCode "save20 ") = some wCoupon := by rfl
  have hdate : coupon_within_dates wCoupon 10 := by decide
  have husage : usage_within_limit wCoupon wUser.userId := by decide
  have helig : eligibility_satisfied wCoupon wUser wCart = true := by decide
  have hpos : 0 < compute_discount_amount wCoupon (compute_cart_value wCart) := by
    norm_num [compute_discount_amount, compute_cart_value, wCoupon, wCart]
  have h := ((claim_C3 wStore "save20 " wUser wCart 10).2 wCoupon hget).2.2.2.2
    hdate husage helig hpos
  exact ⟨hget, hdate, husage, helig, hpos, h.1⟩

/-! ### Claim C4 -/

/-- C4: every failing redemption leaves the store (hence every ledger)
unchanged; and against a coupon whose usage limit N has been reached by
this user (ledger count = N), an in-window redemption attempt fails with
the usage-limit reason and the user's count stays exactly N. -/
theorem claim_C4 (s : Store) (rawCode : String) (user : UserContext) (cart : Cart) (now : ℤ) :
    (∀ err, (redeem s rawCode user cart now).1 = .error err →
      (redeem s rawCode user cart now).2 = s) ∧
    (∀ c N, storeGet s (normalizeCode rawCode) = some c →
      c.usageLimitPerUser = some N →
      (ledgerGet c.usage_count user.userId : ℤ) = N →
      coupon_within_dates c now →
      (redeem s rawCode user cart now).1 = .error .usageLimit ∧
      ∀ c₂, storeGet (redeem s rawCode user cart now).2 (normalizeCode rawCode) = some c₂ →
        (ledgerGet c₂.usage_count user.userId : ℤ) = N) := by
  constructor
  · intro err herr
    unfold redeem at herr ⊢
    dsimp only at herr ⊢
    cases hget : storeGet s (normalizeCode rawCode) with
    | none => rfl
    | some c =>
      rw [hget] at herr
      dsimp only at herr ⊢
      split_ifs at herr ⊢ <;> rfl
  · intro c N hget hlim hcount hdate
    have husage : ¬ usage_within_limit c user.userId := by
      unfold usage_within_limit
      rw [hlim]
      dsimp only
      rw [hcount]
      exact lt_irrefl N
    have heq := @redeem_eq_usageLimit s rawCode user cart now c hget hdate husage
    refine ⟨by rw [heq], ?_⟩
    intro c₂ hc₂
    rw [heq] at hc₂
    dsimp only at hc₂
    rw [hget, Option.some_inj] at hc₂
    rw [← hc₂]
    exact hcount

/-- A FLAT coupon limited to one use per user, already used once by
`"u1"`. -/
def limitCoupon : CouponStored :=
  { code := "LIM1"
    discountType := .FLAT
    discountValue := 10
    startDate := 0
    endDate := 100
    usageLimitPerUser := some 1
    usage_count := [("u1", 1)]
    id := "id-lim" }

/-- A one-coupon store holding `limitCoupon`. -/
def limitStore : Store := [("LIM1", limitCoupon)]

/-- C4 witness: with `usageLimitPerUser = 1` and one prior redemption by
the same user, the next in-window attempt fails with the usage-limit
reason and the user's ledger count stays exactly 1. -/
theorem claim_C4_witness :
    storeGet limitStore (normalizeCode "LIM1") = some limitCoupon ∧
    limitCoupon.usageLimitPerUser = some 1 ∧
    (ledgerGet limitCoupon.usage_count wUser.userId : ℤ) = 1 ∧
    coupon_within_dates limitCoupon 10 ∧
    (redeem limitStore "LIM1" wUser wCart 10).1 = .error .usageLimit ∧
    ∀ c₂, storeGet (redeem limitStore "LIM1" wUser wCart 10).2 (normalizeCode "LIM1") = some c₂ →
      (ledgerGet c₂.usage_count wUser.userId : ℤ) = 1 := by
  have hget : storeGet limitStore (normalizeCode "LIM1") = some limitCoupon := by rfl
  have hlim : limitCoupon.usageLimitPerUser = some 1 := rfl
  have hcount : (ledgerGet limitCoupon.usage_count wUser.userId : ℤ) = 1 := by decide
  have hdate : coupon_within_dates limitCoupon 10 := by decide
  have h := (claim_C4 limitStore "LIM1" wUser wCart 10).2 limitCoupon 1 hget hlim hcount hdate
  exact ⟨hget, hlim, hcount, hdate, h.1, h.2⟩

/-! ### Claim C7 -/

/-- C7: creation rejects `endDate < startDate` at construction
(pydantic), normalizes the code before both the uniqueness check and the
storage key, rejects a duplicate normalized code without touching the
store, and otherwise appends the new coupon under the normalized key
with an empty ledger and the code stored as submitted. -/
theorem claim_C7 (s : Store) (cin : CouponIn) (newId : String) :
    (cin.endDate < cin.startDate → ∃ err, validateCouponIn cin = .error err) ∧
    ((storeGet s (normalizeCode cin.code)).isSome = true →
      create_coupon s cin newId = (.error .duplicateCode, s)) ∧
    ((storeGet s (normalizeCode cin.code)).isSome = false →
      ∃ stored, create_coupon s cin newId = (.ok stored, s ++ [(normalizeCode cin.code, stored)]) ∧
        stored.usage_count = [] ∧ stored.code = cin.code) := by
  refine ⟨?_, ?_, ?_⟩
  · intro hlt
    unfold validateCouponIn
    by_cases hdv : cin.discountValue ≤ 0
    · exact ⟨.validationFailed, by rw [if_pos hdv]⟩
    · exact ⟨.validationFailed, by rw [if_neg hdv, if_pos hlt]⟩
  · intro hdup
    unfold create_coupon
    dsimp only
    rw [if_pos hdup]
  · intro hfresh
    unfold create_coupon
    dsimp only
    rw [if_neg (by simp [hfresh])]
    exact ⟨_, rfl, rfl, rfl⟩

/-- A creation input whose endDate precedes its startDate. -/
def badDatesIn : CouponIn :=
  { code := "BAD", discountType := .FLAT, discountValue := 5, startDate := 10, endDate := 0 }

/-- A creation input whose code normalizes to the stored key "SAVE20". -/
def dupIn : CouponIn :=
  { code := "save20 ", discountType := .FLAT, discountValue := 5, startDate := 0, endDate := 1 }

/-- A creation input with a fresh code. -/
def freshIn : CouponIn :=
  { code := "new10", discountType := .FLAT, discountValue := 5, startDate := 0, endDate := 1 }

/-- C7 witness: validation rejects inverted dates; creating `"save20 "`
against the store holding key "SAVE20" is rejected without mutation;
creating a fresh code appends it under its normalized key with an empty
ledger. -/
theorem claim_C7_witness :
    (badDatesIn.endDate < badDatesIn.startDate ∧
      ∃ err, validateCouponIn badDatesIn = .error err) ∧
    ((storeGet wStore (normalizeCode dupIn.code)).isSome = true ∧
      create_coupon wStore dupIn "id-dup" = (.error .duplicateCode, wStore)) ∧
    ((storeGet wStore (normalizeCode freshIn.code)).isSome = false ∧
      ∃ stored, create_coupon wStore freshIn "id-new" =
          (.ok stored, wStore ++ [(normalizeCode freshIn.code, stored)]) ∧
        stored.usage_count = [] ∧ stored.code = freshIn.code) := by
  have hbad : badDatesIn.endDate < badDatesIn.startDate := by decide
  have hdup : (storeGet wStore (normalizeCode dupIn.code)).isSome = true := by rfl
  have hfresh : (storeGet wStore (normalizeCode freshIn.code)).isSome = false := by rfl
  exact ⟨⟨hbad, (claim_C7 wStore badDatesIn "id-bad").1 hbad⟩,
    ⟨hdup, (claim_C7 wStore dupIn "id-dup").2.1 hdup⟩,
    ⟨hfresh, (claim_C7 wStore freshIn "id-new").2.2 hfresh⟩⟩

/-! ### Claim C10 -/

/-- A usage limit of zero can never be satisfied: the ledger count is a
natural number, never `< 0`. -/
theorem usage_zero_fails (c : CouponStored) (uid : String)
    (h : c.usageLimitPerUser = some 0) : ¬ usage_within_limit c uid := by
  unfold usage_within_limit
  rw [h]
  dsimp only
  exact not_lt.mpr (Int.natCast_nonneg _)

/-- C10 (amended): a coupon with `usageLimitPerUser = 0` fails the usage
gate for every user, so it can never be the winner of best-coupon and no
redemption of it can ever succeed; an in-window redemption attempt fails
with the usage-limit reason (an out-of-window attempt fails earlier, at
the date gate). -/
theorem claim_C10 :
    (∀ (c : CouponStored) (uid : String), c.usageLimitPerUser = some 0 →
      ¬ usage_within_limit c uid) ∧
    (∀ (s : Store) (user : UserContext) (cart : Cart) (now : ℤ) (w : CouponStored) (d : ℚ),
      pickBest (candidates s user cart now) = some (w, d) → w.usageLimitPerUser ≠ some 0) ∧
    (∀ (s : Store) (rawCode : String) (user : UserContext) (cart : Cart) (now : ℤ)
      (c : CouponStored), storeGet s (normalizeCode rawCode) = some c →
      c.usageLimitPerUser = some 0 →
      (coupon_within_dates c now →
        redeem s rawCode user cart now = (.error .usageLimit, s)) ∧
      ∀ ok, (redeem s rawCode user cart now).1 ≠ .ok ok) := by
  refine ⟨usage_zero_fails, ?_, ?_⟩
  · intro s user cart now w d hpb h0
    obtain ⟨hmem, _⟩ := pickBest_mem_rank hpb
    obtain ⟨_, _, husage, _⟩ := candidates_mem hmem
    exact usage_zero_fails w user.userId h0 husage
  · intro s rawCode user cart now c hget h0
    constructor
    · intro hdate
      exact redeem_eq_usageLimit hget hdate (usage_zero_fails c user.userId h0)
    · intro ok
      by_cases hdate : coupon_within_dates c now
      · rw [redeem_eq_usageLimit hget hdate (usage_zero_fails c user.userId h0)]
        simp
      · rw [redeem_eq_dateWindow hget hdate]
        simp

/-- A FLAT coupon with usage limit 0, valid from time 0 to 100. -/
def zeroLimCoupon : CouponStored :=
  { code := "ZERO0"
    discountType := .FLAT
    discountValue := 10
    startDate := 0
    endDate := 100
    usageLimitPerUser := some 0
    id := "id-z" }

/-- A one-coupon store holding `zeroLimCoupon`. -/
def zeroStore : Store := [("ZERO0", zeroLimCoupon)]

/-- C10 counterexample: a redemption attempt against the zero-limit
coupon before its start date fails with the date-window reason, not
usage-limit-reached — the date gate runs first, so not every redemption
attempt against such a coupon reports usage-limit-reached. -/
theorem claim_C10_counterexample :
    zeroLimCoupon.usageLimitPerUser = some 0 ∧
    (redeem zeroStore "ZERO0" wUser wCart (-5)).1 = .error .dateWindow ∧
    ServiceError.dateWindow ≠ ServiceError.usageLimit := by
  exact ⟨rfl, rfl, by decide⟩

/-- C10 witness: the amended statement instantiated on the zero-limit
coupon — the usage gate fails for a fresh user, an in-window redemption
attempt fails with usage-limit-reached, and no redemption succeeds. -/
theorem claim_C10_witness :
    zeroLimCoupon.usageLimitPerUser = some 0 ∧
    ¬ usage_within_limit zeroLimCoupon wUser.userId ∧
    redeem zeroStore "ZERO0" wUser wCart 10 = (.error .usageLimit, zeroStore) ∧
    ∀ ok, (redeem zeroStore "ZERO0" wUser wCart 10).1 ≠ .ok ok := by
  have h0 : zeroLimCoupon.usageLimitPerUser = some 0 := rfl
  have hget : storeGet zeroStore (normalizeCode "ZERO0") = some zeroLimCoupon := rfl
  have h := claim_C10.2.2 zeroStore "ZERO0" wUser wCart 10 zeroLimCoupon hget h0
  exact ⟨h0, claim_C10.1 zeroLimCoupon wUser.userId h0, h.1 (by decide), h.2⟩
